import Mathlib

/-!
Verification of `blocks/extensions/saveload.py`: the `Checkpoint`, `LoadFromDump`
and `Dump` training extensions.  The Python methods are embedded as pure Lean
functions: the training loop's mutable state is threaded explicitly, the log's
current row is an association list with shadowing (an observational model of a
Python dict), and the opaque serialization primitives (`secure_pickle_dump`,
`MainLoopDumpManager.dump`, `MainLoopDumpManager.load_to`) are supplied as
oracles that either succeed or raise an exception.
-/

namespace Blocks

/-- Abstract Python exceptions.  `valueError` is the unpack failure of
`path, = from_user`, `typeError` the failure of `already_saved_to + (path,)`
when the previous value is not a tuple, `wrapped` an exception raised by
`reraise_as` with a new message on top of the original exception. -/
inductive Exn where
  | exn : String → Exn
  | valueError : Exn
  | typeError : Exn
  | wrapped : String → Exn → Exn
deriving DecidableEq

/-- A value stored in a log row: Python `None`, a single string (path), or a
tuple of strings (paths). -/
inductive LogValue where
  | none : LogValue
  | str : String → LogValue
  | paths : List String → LogValue
deriving DecidableEq

/-- The log's current row: a mapping from string keys to values, modelled as an
association list where setting a key prepends (shadowing), so `get` sees the
most recent binding, as a Python dict does. -/
abbrev Row := List (String × LogValue)

/-- Dict read: `row[k]` / `row.get(k)`. -/
def Row.get (r : Row) (k : String) : Option LogValue := List.lookup k r

/-- Dict write: `row[k] = v`. -/
def Row.set (r : Row) (k : String) (v : LogValue) : Row := (k, v) :: r

/-- The externally owned main loop object, reduced to what the extensions can
observe: its log's current row, and an opaque remainder (`rest`) standing for
the model, the training state and every other field, none of which this code
writes. -/
structure MainLoop where
  row : Row
  rest : Nat
deriving DecidableEq

/-- The log key `"loaded_from"`. -/
def LOADED_FROM : String := "loaded_from"

/-- The log key `"saved_to"`. -/
def SAVED_TO : String := "saved_to"

/-- Python `os.path.splitext`: find the last `'.'`; if it lies after the last
`'/'` and the characters between them are not all dots (so the basename does
not consist only of leading dots up to that point), split there, otherwise the
extension is empty. -/
def lastIdx (s : List Char) (c : Char) : Option Nat :=
  match s with
  | [] => Option.none
  | x :: xs =>
    match lastIdx xs c with
    | Option.some i => Option.some (i + 1)
    | Option.none => if x = c then Option.some 0 else Option.none

/-- `os.path.splitext(p)` for posix paths, returning `(root, ext)`. -/
def splitext (p : String) : String × String :=
  let cs := p.data
  match lastIdx cs '.' with
  | Option.none => (p, "")
  | Option.some d =>
    let start :=
      match lastIdx cs '/' with
      | Option.some s => s + 1
      | Option.none => 0
    if start ≤ d then
      if ((cs.drop start).take (d - start)).all (fun c => c = '.') then (p, "")
      else (String.mk (cs.take d), String.mk (cs.drop d))
    else (p, "")

/-- The `Checkpoint` extension: the construction-time `path` and the
`save_separately` attribute list. -/
structure Checkpoint where
  path : String
  save_separately : List String
deriving DecidableEq

/-- `Checkpoint.__init__`: `save_separately` defaults to the empty list when
absent (and a falsy empty list is replaced by the empty list). -/
def Checkpoint.init (path : String) (save_separately : Option (List String)) :
    Checkpoint :=
  ⟨path, match save_separately with
         | Option.none => []
         | Option.some l => l⟩

/-- `Checkpoint.save_separately_filenames(path)`: a dictionary mapping each
attribute to `root + "_" + attribute + ext` where `(root, ext) =
os.path.splitext(path)`. -/
def Checkpoint.save_separately_filenames (save_separately : List String)
    (path : String) : List (String × String) :=
  let re := splitext path
  save_separately.map (fun a => (a, re.1 ++ "_" ++ a ++ re.2))

/-- `path = self.path; if from_user: path, = from_user` — the saving path used,
or the `ValueError` when unpacking a from-user tuple of length other than 1. -/
def pathUsed (path : String) (from_user : List String) : Except Exn String :=
  match from_user with
  | [] => Except.ok path
  | [p] => Except.ok p
  | _ => Except.error Exn.valueError

/-- `self.main_loop.log.current_row.get(SAVED_TO, ()) + (path,)`: appends to
the previous tuple (the empty tuple when the key is absent); a previous value
that is not a tuple raises `TypeError`. -/
def tupleAppend (prev : Option LogValue) (p : String) : Option LogValue :=
  match prev with
  | Option.none => Option.some (LogValue.paths [p])
  | Option.some (LogValue.paths l) => Option.some (LogValue.paths (l ++ [p]))
  | Option.some (LogValue.str _) => Option.none
  | Option.some LogValue.none => Option.none

/-- Run `secure_pickle_dump` on each target path in order, stopping at the
first exception; returns the paths actually attempted and the exception, if
any. -/
def dumpList (dumpExn : String → Option Exn) : List String → List String × Option Exn
  | [] => ([], Option.none)
  | f :: fs =>
    match dumpExn f with
    | Option.some e => ([f], Option.some e)
    | Option.none =>
      let r := dumpList dumpExn fs
      (f :: r.1, r.2)

/-- The tail of `Checkpoint.do` after the `SAVED_TO` tuple was recorded in
`ml1`: if any `secure_pickle_dump` call raised, overwrite `SAVED_TO` with
`None` and re-raise, otherwise return normally. -/
def Checkpoint.finish (ml1 : MainLoop) (r : List String × Option Exn) :
    MainLoop × Option Exn × List String :=
  match r.2 with
  | Option.some e =>
    ({ ml1 with row := ml1.row.set SAVED_TO LogValue.none }, Option.some e, r.1)
  | Option.none => (ml1, Option.none, r.1)

/-- `Checkpoint.do`: choose the path (from-user argument overrides the
construction-time path), record the accumulated tuple under `SAVED_TO`, pickle
the main loop and then each `save_separately` attribute to its derived file;
on any exception inside the `try`, overwrite `SAVED_TO` with `None` and
re-raise.  `dumpExn` tells, per target path, whether `secure_pickle_dump`
raises.  Returns the new main loop, the propagated exception if any, and the
trace of paths passed to `secure_pickle_dump` in order. -/
def Checkpoint.run (ext : Checkpoint) (from_user : List String)
    (dumpExn : String → Option Exn) (ml : MainLoop) :
    MainLoop × Option Exn × List String :=
  match pathUsed ext.path from_user with
  | Except.error e => ({ ml with row := ml.row.set SAVED_TO LogValue.none }, Option.some e, [])
  | Except.ok path =>
    match tupleAppend (ml.row.get SAVED_TO) path with
    | Option.none =>
      ({ ml with row := ml.row.set SAVED_TO LogValue.none }, Option.some Exn.typeError, [])
    | Option.some v =>
      Checkpoint.finish { ml with row := ml.row.set SAVED_TO v }
        (dumpList dumpExn
          (path :: (Checkpoint.save_separately_filenames ext.save_separately path).map Prod.snd))

/-- Modelled from the spec: `MainLoopDumpManager` is not among the provided
source files.  Per the spec and the docstrings, `state_path` is "the path to
the folder with dump", so the manager's `folder` is the state path given at
construction. -/
def MainLoopDumpManager.folder (state_path : String) : String := state_path

/-- Modelled from the spec: `reraise_as` from `blocks.utils` is not among the
provided source files.  At the call site it receives the message string
`"Failed to load the state"`; it re-raises the caught exception under that new
message, modelled by wrapping the original exception. -/
def reraise_as (msg : String) (orig : Exn) : Exn := Exn.wrapped msg orig

/-- The `LoadFromDump` extension, carrying its manager's dump folder. -/
structure LoadFromDump where
  folder : String
deriving DecidableEq

/-- `LoadFromDump.__init__(state_path)`: builds a `MainLoopDumpManager` on
`state_path`. -/
def LoadFromDump.init (state_path : String) : LoadFromDump :=
  ⟨MainLoopDumpManager.folder state_path⟩

/-- `LoadFromDump.before_training`: if the dump folder does not exist, return
silently; otherwise run `manager.load_to(main_loop)` (the oracle `loadResult`
tells whether it raises) and on success record the folder under
`LOADED_FROM`; on exception, re-raise as "Failed to load the state". -/
def LoadFromDump.before_training (ext : LoadFromDump) (folderExists : Bool)
    (loadResult : Option Exn) (ml : MainLoop) : MainLoop × Option Exn :=
  if folderExists = false then (ml, Option.none)
  else
    match loadResult with
    | Option.none =>
      ({ ml with row := ml.row.set LOADED_FROM (LogValue.str ext.folder) }, Option.none)
    | Option.some e => (ml, Option.some (reraise_as "Failed to load the state" e))

/-- The `Dump` extension, carrying its manager's dump folder. -/
structure Dump where
  folder : String
deriving DecidableEq

/-- `Dump.__init__(state_path)`: builds a `MainLoopDumpManager` on
`state_path`. -/
def Dump.init (state_path : String) : Dump :=
  ⟨MainLoopDumpManager.folder state_path⟩

/-- `Dump.do`: record the dump folder under `SAVED_TO`, then
`manager.dump(main_loop)` (the oracle `dumpResult` tells whether it raises);
on exception overwrite `SAVED_TO` with `None` and re-raise. -/
def Dump.run (ext : Dump) (dumpResult : Option Exn) (ml : MainLoop) :
    MainLoop × Option Exn :=
  let ml1 := { ml with row := ml.row.set SAVED_TO (LogValue.str ext.folder) }
  match dumpResult with
  | Option.some e =>
    ({ ml1 with row := ml1.row.set SAVED_TO LogValue.none }, Option.some e)
  | Option.none => (ml1, Option.none)

/-- In the words of the spec: the `saved_to` record, when present, is "a single
path or None".  Used to compare the spec's description with what the code
actually stores. -/
def isSinglePathOrNone : Option LogValue → Bool
  | Option.some (LogValue.str _) => true
  | Option.some LogValue.none => true
  | _ => false

theorem Row.get_set_self (r : Row) (k : String) (v : LogValue) :
    (r.set k v).get k = Option.some v := by
  simp [Row.get, Row.set, List.lookup]

theorem Row.get_set_ne (r : Row) (k k' : String) (v : LogValue) (h : k' ≠ k) :
    (r.set k v).get k' = r.get k' := by
  have hb : (k' == k) = false := beq_false_of_ne h
  simp [Row.get, Row.set, List.lookup, hb]

/-- C5: for every path `p` and every attribute name `a` in `save_separately`,
`Checkpoint.save_separately_filenames(p)` maps `a` to `root ++ "_" ++ a ++ ext`
where `(root, ext) = splitext p`. -/
theorem save_separately_filenames_inserts_attribute (sep : List String)
    (p a : String) (ha : a ∈ sep) :
    List.lookup a (Checkpoint.save_separately_filenames sep p) =
      Option.some ((splitext p).1 ++ "_" ++ a ++ (splitext p).2) := by
  induction sep with
  | nil => cases ha
  | cons b bs ih =>
    by_cases hab : a = b
    · subst hab
      simp [Checkpoint.save_separately_filenames, List.lookup]
    · have hmem : a ∈ bs := by
        cases ha with
        | head => exact absurd rfl hab
        | tail _ h => exact h
      have hb : (a == b) = false := beq_false_of_ne hab
      simp only [Checkpoint.save_separately_filenames, List.map_cons, List.lookup, hb]
      exact ih hmem

/-- C5 witness at a concrete path and attribute. -/
theorem save_separately_filenames_inserts_attribute_witness :
    List.lookup "log" (Checkpoint.save_separately_filenames ["log"] "model.pkl") =
      Option.some ((splitext "model.pkl").1 ++ "_" ++ "log" ++ (splitext "model.pkl").2) :=
  save_separately_filenames_inserts_attribute ["log"] "model.pkl" "log" (by decide)

/-- C8: when the dump folder does not exist, `LoadFromDump.before_training`
returns without raising, writes nothing to the log, and leaves the main loop
unchanged. -/
theorem before_training_no_folder_is_noop (ext : LoadFromDump)
    (loadResult : Option Exn) (ml : MainLoop) :
    LoadFromDump.before_training ext false loadResult ml = (ml, Option.none) := rfl

/-- C6: if the dump folder exists and `load_to` raises no exception, the log's
current row records the manager's folder (the `state_path` given at
construction) under `"loaded_from"`, and no exception propagates. -/
theorem before_training_records_loaded_from (state_path : String) (ml : MainLoop) :
    (LoadFromDump.before_training (LoadFromDump.init state_path) true Option.none
        ml).1.row.get LOADED_FROM =
      Option.some (LogValue.str (MainLoopDumpManager.folder state_path)) ∧
    (LoadFromDump.before_training (LoadFromDump.init state_path) true Option.none
        ml).2 = Option.none := by
  refine ⟨?_, rfl⟩
  simp [LoadFromDump.before_training, LoadFromDump.init, Row.get_set_self]

/-- A value produced by `tupleAppend` is always a tuple of paths. -/
theorem tupleAppend_paths (prev : Option LogValue) (p : String) (v : LogValue)
    (h : tupleAppend prev p = Option.some v) : ∃ l, v = LogValue.paths l := by
  cases prev with
  | none => exact ⟨[p], (Option.some.inj h).symm⟩
  | some lv =>
    cases lv with
    | paths l => exact ⟨l ++ [p], (Option.some.inj h).symm⟩
    | str s => exact Option.noConfusion h
    | none => exact Option.noConfusion h

/-- C7: `Checkpoint.do` only writes the `"saved_to"` entry of the log's
current row: the rest of the main loop state and every other log key are
unchanged, whether the run succeeds or raises. -/
theorem checkpoint_frame (ext : Checkpoint) (fu : List String)
    (dumpExn : String → Option Exn) (ml : MainLoop) (k : String)
    (hk : k ≠ SAVED_TO) :
    (Checkpoint.run ext fu dumpExn ml).1.rest = ml.rest ∧
    (Checkpoint.run ext fu dumpExn ml).1.row.get k = ml.row.get k := by
  unfold Checkpoint.run
  split
  · exact ⟨rfl, Row.get_set_ne _ _ _ _ hk⟩
  · split
    · exact ⟨rfl, Row.get_set_ne _ _ _ _ hk⟩
    · unfold Checkpoint.finish
      split
      · refine ⟨rfl, ?_⟩
        rw [Row.get_set_ne _ _ _ _ hk, Row.get_set_ne _ _ _ _ hk]
      · exact ⟨rfl, Row.get_set_ne _ _ _ _ hk⟩

/-- C7 witness at a concrete extension, main loop and log key. -/
theorem checkpoint_frame_witness :
    (Checkpoint.run ⟨"ck.pkl", ["log"]⟩ [] (fun _ => Option.none)
        ⟨[("epoch", LogValue.str "3")], 5⟩).1.rest =
      (⟨[("epoch", LogValue.str "3")], 5⟩ : MainLoop).rest ∧
    (Checkpoint.run ⟨"ck.pkl", ["log"]⟩ [] (fun _ => Option.none)
        ⟨[("epoch", LogValue.str "3")], 5⟩).1.row.get "epoch" =
      (⟨[("epoch", LogValue.str "3")], 5⟩ : MainLoop).row.get "epoch" :=
  checkpoint_frame ⟨"ck.pkl", ["log"]⟩ [] (fun _ => Option.none)
    ⟨[("epoch", LogValue.str "3")], 5⟩ "epoch" (by decide)

/-- C2: if serialization fails — the first failing `secure_pickle_dump` call in
`Checkpoint.do`, or `manager.dump` in `Dump.do` — then afterwards the log's
current row holds `None` under `"saved_to"` and the original exception
propagates unchanged. -/
theorem serialization_failure_marks_none (ext : Checkpoint) (fu : List String)
    (dumpExn : String → Option Exn) (ml : MainLoop) (p : String) (v : LogValue)
    (e : Exn) (dext : Dump) (dml : MainLoop)
    (hp : pathUsed ext.path fu = Except.ok p)
    (ht : tupleAppend (ml.row.get SAVED_TO) p = Option.some v)
    (hd : (dumpList dumpExn
        (p :: (Checkpoint.save_separately_filenames ext.save_separately p).map
          Prod.snd)).2 = Option.some e) :
    ((Checkpoint.run ext fu dumpExn ml).2.1 = Option.some e ∧
      (Checkpoint.run ext fu dumpExn ml).1.row.get SAVED_TO =
        Option.some LogValue.none) ∧
    ((Dump.run dext (Option.some e) dml).2 = Option.some e ∧
      (Dump.run dext (Option.some e) dml).1.row.get SAVED_TO =
        Option.some LogValue.none) := by
  refine ⟨⟨?_, ?_⟩, rfl, Row.get_set_self _ _ _⟩
  · simp only [Checkpoint.run, hp, ht, Checkpoint.finish, hd]
  · simp only [Checkpoint.run, hp, ht, Checkpoint.finish, hd]
    exact Row.get_set_self _ _ _

/-- C2 witness: a run where every dump call raises. -/
theorem serialization_failure_marks_none_witness :
    ((Checkpoint.run ⟨"ck.pkl", []⟩ [] (fun _ => Option.some (Exn.exn "io"))
        ⟨[], 0⟩).2.1 = Option.some (Exn.exn "io") ∧
      (Checkpoint.run ⟨"ck.pkl", []⟩ [] (fun _ => Option.some (Exn.exn "io"))
        ⟨[], 0⟩).1.row.get SAVED_TO = Option.some LogValue.none) ∧
    ((Dump.run ⟨"dumpdir"⟩ (Option.some (Exn.exn "io")) ⟨[], 0⟩).2 =
        Option.some (Exn.exn "io") ∧
      (Dump.run ⟨"dumpdir"⟩ (Option.some (Exn.exn "io")) ⟨[], 0⟩).1.row.get
        SAVED_TO = Option.some LogValue.none) :=
  serialization_failure_marks_none ⟨"ck.pkl", []⟩ []
    (fun _ => Option.some (Exn.exn "io")) ⟨[], 0⟩ "ck.pkl"
    (LogValue.paths ["ck.pkl"]) (Exn.exn "io") ⟨"dumpdir"⟩ ⟨[], 0⟩ rfl rfl rfl

/-- C1 counterexample: in `LoadFromDump.before_training`, a deserialization
failure writes no failure marker to the log (the row stays empty) and the
exception that propagates is not the original one but the re-raised
"Failed to load the state" exception. -/
theorem load_failure_writes_no_marker :
    (LoadFromDump.before_training ⟨"st"⟩ true (Option.some (Exn.exn "boom"))
        ⟨[], 0⟩).1.row = ([] : Row) ∧
    (LoadFromDump.before_training ⟨"st"⟩ true (Option.some (Exn.exn "boom"))
        ⟨[], 0⟩).2 ≠ Option.some (Exn.exn "boom") := by
  exact ⟨rfl, by decide⟩

/-- C1 (amended): in `Checkpoint.do` and `Dump.do` an exception raised during
serialization is caught exactly once, `None` is written under `"saved_to"`,
and the same exception is re-raised; in `LoadFromDump.before_training` the
exception is caught once and re-raised as a new exception with the message
"Failed to load the state", and no failure marker is written to the log. -/
theorem exception_caught_once_amended (ext : Checkpoint) (fu : List String)
    (dumpExn : String → Option Exn) (ml : MainLoop) (p : String) (v : LogValue)
    (e : Exn) (dext : Dump) (dml : MainLoop) (lext : LoadFromDump) (e0 : Exn)
    (lml : MainLoop)
    (hp : pathUsed ext.path fu = Except.ok p)
    (ht : tupleAppend (ml.row.get SAVED_TO) p = Option.some v)
    (hd : (dumpList dumpExn
        (p :: (Checkpoint.save_separately_filenames ext.save_separately p).map
          Prod.snd)).2 = Option.some e) :
    Checkpoint.run ext fu dumpExn ml =
      ({ ml with
          row := Row.set (Row.set ml.row SAVED_TO v) SAVED_TO LogValue.none },
        Option.some e,
        (dumpList dumpExn
          (p :: (Checkpoint.save_separately_filenames ext.save_separately p).map
            Prod.snd)).1) ∧
    Dump.run dext (Option.some e0) dml =
      ({ dml with
          row := Row.set (Row.set dml.row SAVED_TO (LogValue.str dext.folder))
            SAVED_TO LogValue.none }, Option.some e0) ∧
    LoadFromDump.before_training lext true (Option.some e0) lml =
      (lml, Option.some (reraise_as "Failed to load the state" e0)) := by
  refine ⟨?_, rfl, rfl⟩
  simp only [Checkpoint.run, hp, ht, Checkpoint.finish, hd]

/-- C1 witness: the amended behaviour at a failing dump call and a failing
load. -/
theorem exception_caught_once_amended_witness :
    Checkpoint.run ⟨"m.pkl", []⟩ [] (fun _ => Option.some (Exn.exn "disk"))
        ⟨[], 1⟩ =
      ({ (⟨[], 1⟩ : MainLoop) with
          row := Row.set (Row.set [] SAVED_TO (LogValue.paths ["m.pkl"]))
            SAVED_TO LogValue.none },
        Option.some (Exn.exn "disk"),
        (dumpList (fun _ => Option.some (Exn.exn "disk"))
          ("m.pkl" ::
            (Checkpoint.save_separately_filenames [] "m.pkl").map Prod.snd)).1) ∧
    Dump.run ⟨"d"⟩ (Option.some (Exn.exn "net")) ⟨[], 1⟩ =
      ({ (⟨[], 1⟩ : MainLoop) with
          row := Row.set (Row.set [] SAVED_TO (LogValue.str "d")) SAVED_TO
            LogValue.none }, Option.some (Exn.exn "net")) ∧
    LoadFromDump.before_training ⟨"f"⟩ true (Option.some (Exn.exn "net"))
        ⟨[], 1⟩ =
      (⟨[], 1⟩, Option.some (reraise_as "Failed to load the state"
        (Exn.exn "net"))) :=
  exception_caught_once_amended ⟨"m.pkl", []⟩ []
    (fun _ => Option.some (Exn.exn "disk")) ⟨[], 1⟩ "m.pkl"
    (LogValue.paths ["m.pkl"]) (Exn.exn "disk") ⟨"d"⟩ ⟨[], 1⟩ ⟨"f"⟩
    (Exn.exn "net") ⟨[], 1⟩ rfl rfl rfl

/-- C3 counterexample: a successful `Checkpoint.do` does not store the path
itself under `"saved_to"` — it stores a one-element tuple of paths. -/
theorem saved_to_not_exact_path :
    (Checkpoint.run ⟨"ck.pkl", []⟩ [] (fun _ => Option.none) ⟨[], 0⟩).2.1 =
      Option.none ∧
    (Checkpoint.run ⟨"ck.pkl", []⟩ [] (fun _ => Option.none)
        ⟨[], 0⟩).1.row.get SAVED_TO ≠ Option.some (LogValue.str "ck.pkl") := by
  exact ⟨rfl, by decide⟩

/-- C3 (amended): on an exception-free run, `Checkpoint.do` records under
`"saved_to"` a tuple of paths whose last element is the exact path used, and
`Dump.do` records exactly the dump folder. -/
theorem saved_to_records_path_amended (ext : Checkpoint) (fu : List String)
    (dumpExn : String → Option Exn) (ml : MainLoop) (p : String) (dext : Dump)
    (dml : MainLoop)
    (hp : pathUsed ext.path fu = Except.ok p)
    (hsucc : (Checkpoint.run ext fu dumpExn ml).2.1 = Option.none) :
    (∃ l, (Checkpoint.run ext fu dumpExn ml).1.row.get SAVED_TO =
      Option.some (LogValue.paths (l ++ [p]))) ∧
    ((Dump.run dext Option.none dml).2 = Option.none ∧
      (Dump.run dext Option.none dml).1.row.get SAVED_TO =
        Option.some (LogValue.str dext.folder)) := by
  refine ⟨?_, rfl, Row.get_set_self _ _ _⟩
  cases ht : tupleAppend (ml.row.get SAVED_TO) p with
  | none =>
    exfalso
    simp only [Checkpoint.run, hp, ht] at hsucc
    exact Option.noConfusion hsucc
  | some v =>
    cases hd : (dumpList dumpExn
        (p :: (Checkpoint.save_separately_filenames ext.save_separately p).map
          Prod.snd)).2 with
    | some e =>
      exfalso
      simp only [Checkpoint.run, hp, ht, Checkpoint.finish, hd] at hsucc
      exact Option.noConfusion hsucc
    | none =>
      have hrow : (Checkpoint.run ext fu dumpExn ml).1.row.get SAVED_TO =
          Option.some v := by
        simp only [Checkpoint.run, hp, ht, Checkpoint.finish, hd]
        exact Row.get_set_self _ _ _
      cases hprev : ml.row.get SAVED_TO with
      | none =>
        rw [hprev] at ht
        have hv : LogValue.paths [p] = v := Option.some.inj ht
        exact ⟨[], by rw [hrow, ← hv]; rfl⟩
      | some lv =>
        cases lv with
        | paths l =>
          rw [hprev] at ht
          have hv : LogValue.paths (l ++ [p]) = v := Option.some.inj ht
          exact ⟨l, by rw [hrow, ← hv]⟩
        | str s => rw [hprev] at ht; exact Option.noConfusion ht
        | none => rw [hprev] at ht; exact Option.noConfusion ht

/-- C3 witness: a concrete exception-free checkpoint and dump. -/
theorem saved_to_records_path_amended_witness :
    (∃ l, (Checkpoint.run ⟨"w.pkl", ["log"]⟩ [] (fun _ => Option.none)
        ⟨[], 2⟩).1.row.get SAVED_TO =
      Option.some (LogValue.paths (l ++ ["w.pkl"]))) ∧
    ((Dump.run ⟨"wdir"⟩ Option.none ⟨[], 2⟩).2 = Option.none ∧
      (Dump.run ⟨"wdir"⟩ Option.none ⟨[], 2⟩).1.row.get SAVED_TO =
        Option.some (LogValue.str "wdir")) :=
  saved_to_records_path_amended ⟨"w.pkl", ["log"]⟩ [] (fun _ => Option.none)
    ⟨[], 2⟩ "w.pkl" ⟨"wdir"⟩ ⟨[], 2⟩ rfl rfl

/-- C4 counterexample: after a successful `Checkpoint.do` the `"saved_to"`
record is present but is a tuple of paths, not a single path and not `None`. -/
theorem saved_to_not_single_path :
    (Checkpoint.run ⟨"c4.pkl", []⟩ [] (fun _ => Option.none)
        ⟨[], 0⟩).1.row.get SAVED_TO =
      Option.some (LogValue.paths ["c4.pkl"]) ∧
    isSinglePathOrNone ((Checkpoint.run ⟨"c4.pkl", []⟩ [] (fun _ => Option.none)
        ⟨[], 0⟩).1.row.get SAVED_TO) = false := by
  exact ⟨rfl, rfl⟩

/-- C4 (amended): after a run of `Checkpoint.do` the `"saved_to"` record is a
tuple of paths or `None`; after a run of `Dump.do` it is the dump folder path
or `None`; `LoadFromDump.before_training` either leaves `"loaded_from"`
unchanged or sets it to the dump folder path. -/
theorem log_record_kinds_amended :
    (∀ (ext : Checkpoint) (fu : List String) (dumpExn : String → Option Exn)
        (ml : MainLoop),
      (Checkpoint.run ext fu dumpExn ml).1.row.get SAVED_TO =
        Option.some LogValue.none ∨
      ∃ l, (Checkpoint.run ext fu dumpExn ml).1.row.get SAVED_TO =
        Option.some (LogValue.paths l)) ∧
    (∀ (dext : Dump) (r : Option Exn) (dml : MainLoop),
      (Dump.run dext r dml).1.row.get SAVED_TO = Option.some LogValue.none ∨
      (Dump.run dext r dml).1.row.get SAVED_TO =
        Option.some (LogValue.str dext.folder)) ∧
    (∀ (lext : LoadFromDump) (b : Bool) (r : Option Exn) (lml : MainLoop),
      (LoadFromDump.before_training lext b r lml).1.row.get LOADED_FROM =
        lml.row.get LOADED_FROM ∨
      (LoadFromDump.before_training lext b r lml).1.row.get LOADED_FROM =
        Option.some (LogValue.str lext.folder)) := by
  refine ⟨?_, ?_, ?_⟩
  · intro ext fu dumpExn ml
    cases hp : pathUsed ext.path fu with
    | error e =>
      simp only [Checkpoint.run, hp]
      exact Or.inl (Row.get_set_self _ _ _)
    | ok p =>
      cases ht : tupleAppend (ml.row.get SAVED_TO) p with
      | none =>
        simp only [Checkpoint.run, hp, ht]
        exact Or.inl (Row.get_set_self _ _ _)
      | some v =>
        cases hd : (dumpList dumpExn
            (p :: (Checkpoint.save_separately_filenames ext.save_separately
              p).map Prod.snd)).2 with
        | some e =>
          simp only [Checkpoint.run, hp, ht, Checkpoint.finish, hd]
          exact Or.inl (Row.get_set_self _ _ _)
        | none =>
          simp only [Checkpoint.run, hp, ht, Checkpoint.finish, hd]
          obtain ⟨l, rfl⟩ := tupleAppend_paths _ _ _ ht
          exact Or.inr ⟨l, Row.get_set_self _ _ _⟩
  · intro dext r dml
    cases r with
    | some e => exact Or.inl (Row.get_set_self _ _ _)
    | none => exact Or.inr (Row.get_set_self _ _ _)
  · intro lext b r lml
    cases b with
    | false => exact Or.inl rfl
    | true =>
      cases r with
      | some e => exact Or.inl rfl
      | none => exact Or.inr (Row.get_set_self _ _ _)

/-- C9: a successful `Checkpoint.do` appends the path used to the previously
present `"saved_to"` tuple, the empty tuple when the key was absent. -/
theorem checkpoint_accumulates (ext : Checkpoint) (fu : List String)
    (dumpExn : String → Option Exn) (ml : MainLoop) (p : String)
    (hp : pathUsed ext.path fu = Except.ok p)
    (hsucc : (Checkpoint.run ext fu dumpExn ml).2.1 = Option.none) :
    (ml.row.get SAVED_TO = Option.none →
      (Checkpoint.run ext fu dumpExn ml).1.row.get SAVED_TO =
        Option.some (LogValue.paths [p])) ∧
    (∀ l, ml.row.get SAVED_TO = Option.some (LogValue.paths l) →
      (Checkpoint.run ext fu dumpExn ml).1.row.get SAVED_TO =
        Option.some (LogValue.paths (l ++ [p]))) := by
  constructor
  · intro hprev
    have ht : tupleAppend (ml.row.get SAVED_TO) p =
        Option.some (LogValue.paths [p]) := by rw [hprev]; rfl
    cases hd : (dumpList dumpExn
        (p :: (Checkpoint.save_separately_filenames ext.save_separately p).map
          Prod.snd)).2 with
    | some e =>
      exfalso
      simp only [Checkpoint.run, hp, ht, Checkpoint.finish, hd] at hsucc
      exact Option.noConfusion hsucc
    | none =>
      simp only [Checkpoint.run, hp, ht, Checkpoint.finish, hd]
      exact Row.get_set_self _ _ _
  · intro l hprev
    have ht : tupleAppend (ml.row.get SAVED_TO) p =
        Option.some (LogValue.paths (l ++ [p])) := by rw [hprev]; rfl
    cases hd : (dumpList dumpExn
        (p :: (Checkpoint.save_separately_filenames ext.save_separately p).map
          Prod.snd)).2 with
    | some e =>
      exfalso
      simp only [Checkpoint.run, hp, ht, Checkpoint.finish, hd] at hsucc
      exact Option.noConfusion hsucc
    | none =>
      simp only [Checkpoint.run, hp, ht, Checkpoint.finish, hd]
      exact Row.get_set_self _ _ _

/-- C9 witness: two successive successful checkpoints within one row
accumulate both paths in order. -/
theorem checkpoint_accumulates_witness :
    (Checkpoint.run ⟨"second.pkl", []⟩ [] (fun _ => Option.none)
        ⟨[(SAVED_TO, LogValue.paths ["first.pkl"])], 0⟩).1.row.get SAVED_TO =
      Option.some (LogValue.paths (["first.pkl"] ++ ["second.pkl"])) :=
  (checkpoint_accumulates ⟨"second.pkl", []⟩ [] (fun _ => Option.none)
    ⟨[(SAVED_TO, LogValue.paths ["first.pkl"])], 0⟩ "second.pkl" rfl rfl).2
    ["first.pkl"] rfl

/-- C10: a single user-supplied argument replaces the construction-time path
everywhere in `Checkpoint.do` — the run with argument `p` coincides with the
run of a checkpoint constructed on `p` — and with no user argument the
construction-time path is the one passed to every `secure_pickle_dump` call. -/
theorem user_path_overrides (ext : Checkpoint) (p : String)
    (dumpExn : String → Option Exn) (ml : MainLoop) (v : LogValue)
    (ht : tupleAppend (ml.row.get SAVED_TO) ext.path = Option.some v) :
    Checkpoint.run ext [p] dumpExn ml =
      Checkpoint.run ⟨p, ext.save_separately⟩ [] dumpExn ml ∧
    (Checkpoint.run ext [] dumpExn ml).2.2 =
      (dumpList dumpExn (ext.path ::
        (Checkpoint.save_separately_filenames ext.save_separately
          ext.path).map Prod.snd)).1 := by
  constructor
  · rfl
  · have hp : pathUsed ext.path [] = Except.ok ext.path := rfl
    simp only [Checkpoint.run, hp, ht]
    unfold Checkpoint.finish
    split
    · rfl
    · rfl

/-- C10 witness: the override behaviour at a concrete checkpoint. -/
theorem user_path_overrides_witness :
    Checkpoint.run ⟨"orig.pkl", ["log"]⟩ ["user.pkl"] (fun _ => Option.none)
        ⟨[], 3⟩ =
      Checkpoint.run ⟨"user.pkl", ["log"]⟩ [] (fun _ => Option.none)
        ⟨[], 3⟩ ∧
    (Checkpoint.run ⟨"orig.pkl", ["log"]⟩ [] (fun _ => Option.none)
        ⟨[], 3⟩).2.2 =
      (dumpList (fun _ => Option.none) ("orig.pkl" ::
        (Checkpoint.save_separately_filenames ["log"] "orig.pkl").map
          Prod.snd)).1 :=
  user_path_overrides ⟨"orig.pkl", ["log"]⟩ "user.pkl" (fun _ => Option.none)
    ⟨[], 3⟩ (LogValue.paths ["orig.pkl"]) rfl

end Blocks
